import Mathlib

/-!
Shallow embedding of the tgmr repository's retry/rate-limit core and URL
classification helpers, with theorems checking the specification's claims.

Times are modelled as natural numbers of milliseconds (JavaScript
`Date.now()` values).  The rate limiter's `Map<number, RateLimitEntry>` keys
entries by user id and entries for distinct ids never interact, so the
embedding tracks the entry of a single identity: `Option RateLimitEntry` is
the result of `this.limits.get(userId)`.
-/

namespace Tgmr

/-! ### Rate limiter (src/utils/rateLimit.ts) -/

structure RateLimitConfig where
  RATE_LIMIT : Nat
  COOLDOWN : Nat
deriving DecidableEq, Repr

structure RateLimitEntry where
  count : Nat
  lastReset : Nat
  cooldownUntil : Nat
deriving DecidableEq, Repr

/-- `resetInterval = 60 * 1000` milliseconds, from the `RateLimiter` class. -/
def resetInterval : Nat := 60 * 1000

/-- Embedding of `RateLimiter.getOrCreateEntry`: create a fresh entry when the
map holds none, otherwise reset `count` when more than `resetInterval` has
passed since `lastReset`. -/
def getOrCreateEntry (now : Nat) : Option RateLimitEntry → RateLimitEntry
  | none => ⟨0, now, 0⟩
  | some e =>
    if now - e.lastReset > resetInterval then
      { e with count := 0, lastReset := now }
    else
      e

/-- The body of `RateLimiter.canMakeRequest` after the `getOrCreateEntry`
call: returns the boolean result together with the updated entry. -/
def canMakeRequestEntry (cfg : RateLimitConfig) (now : Nat) (e : RateLimitEntry) :
    Bool × RateLimitEntry :=
  if e.cooldownUntil > now then
    (false, e)
  else if e.count ≥ cfg.RATE_LIMIT then
    (false, { e with cooldownUntil := now + cfg.COOLDOWN * 1000 })
  else
    (true, e)

/-- Embedding of `RateLimiter.canMakeRequest` for one identity. -/
def canMakeRequest (cfg : RateLimitConfig) (now : Nat) (st : Option RateLimitEntry) :
    Bool × RateLimitEntry :=
  canMakeRequestEntry cfg now (getOrCreateEntry now st)

/-- Embedding of `RateLimiter.recordRequest` for one identity. -/
def recordRequest (now : Nat) (st : Option RateLimitEntry) : RateLimitEntry :=
  let e := getOrCreateEntry now st
  { e with count := e.count + 1 }

/-- A timestamped call on the rate limiter for one identity. -/
inductive RateOp
  | check (now : Nat)
  | record (now : Nat)
deriving DecidableEq, Repr

/-- The timestamp of a call. -/
def RateOp.time : RateOp → Nat
  | check t => t
  | record t => t

/-- Runs a sequence of rate-limiter calls on one identity's entry, collecting
the boolean results of the `canMakeRequest` calls and the final entry. -/
def runTrace (cfg : RateLimitConfig) (e : RateLimitEntry) :
    List RateOp → List Bool × RateLimitEntry
  | [] => ([], e)
  | RateOp.check t :: ops =>
    let r := canMakeRequest cfg t (some e)
    let rest := runTrace cfg r.2 ops
    (r.1 :: rest.1, rest.2)
  | RateOp.record t :: ops => runTrace cfg (recordRequest t (some e)) ops

/-- A check-then-record round per timestamp pair (check time, record time),
the caller pattern the spec prescribes for allowed requests. -/
def roundOps : List (Nat × Nat) → List RateOp
  | [] => []
  | p :: ps => RateOp.check p.1 :: RateOp.record p.2 :: roundOps ps

/-- Bare `canMakeRequest` polls, one per timestamp. -/
def checkOps : List Nat → List RateOp
  | [] => []
  | t :: ts => RateOp.check t :: checkOps ts

/-! ### String helpers modelling JavaScript string methods -/

/-- Boolean test that `p` is a leading segment of `h` (character lists). -/
def leadsList : List Char → List Char → Bool
  | [], _ => true
  | _ :: _, [] => false
  | a :: ps, b :: hs => a == b && leadsList ps hs

/-- Boolean test that `p` occurs contiguously inside `h` (character lists). -/
def occursIn (p : List Char) : List Char → Bool
  | [] => leadsList p []
  | b :: hs => leadsList p (b :: hs) || occursIn p hs

/-- JavaScript `hay.includes(pat)`. -/
def strIncludes (hay pat : String) : Bool := occursIn pat.data hay.data

/-- JavaScript `hay.endsWith(pat)`. -/
def strEndsWith (hay pat : String) : Bool :=
  leadsList pat.data.reverse hay.data.reverse

/-- JavaScript `hay.startsWith(pat)`. -/
def strStartsWith (hay pat : String) : Bool := leadsList pat.data hay.data

/-- JavaScript `hostname.replace(/^www\./, '')`: strips one leading `www.`. -/
def stripWww (h : String) : String :=
  if strStartsWith h ("www.") then h.drop 4 else h

/-! ### Retry executor (src/utils/retry.ts) -/

/-- A `retryableErrors` element: a plain substring, or a RegExp abstracted by
the boolean test the code applies to the error message (`pattern.test(msg)`). -/
inductive RetryPattern
  | str : String → RetryPattern
  | regex : (String → Bool) → RetryPattern

/-- How `withRetry` matches one `retryableErrors` element against an error
message: `errorMessage.includes(pattern)` for strings, `pattern.test(...)`
for RegExps. -/
def RetryPattern.matchesMsg (msg : String) : RetryPattern → Bool
  | RetryPattern.str s => strIncludes msg s
  | RetryPattern.regex f => f msg

structure RetryOptions where
  maxAttempts : Nat
  initialDelay : Nat
  maxDelay : Nat
  backoffFactor : Nat
  retryableErrors : List RetryPattern

/-- The `defaultOptions` constant of src/utils/retry.ts. -/
def defaultOptions : RetryOptions where
  maxAttempts := 3
  initialDelay := 1000
  maxDelay := 10000
  backoffFactor := 2
  retryableErrors :=
    [RetryPattern.str ("Network request"),
     RetryPattern.str ("ETIMEDOUT"),
     RetryPattern.str ("ECONNRESET"),
     RetryPattern.str ("ECONNREFUSED"),
     RetryPattern.str ("socket hang up"),
     RetryPattern.str ("getaddrinfo")]

/-- The `isRetryable` test inside the catch block of `withRetry`. -/
def isRetryable (opts : RetryOptions) (msg : String) : Bool :=
  opts.retryableErrors.any (fun p => p.matchesMsg msg)

/-- Result of one invocation of the wrapped operation: the resolved value, or
the rejection's error message. -/
inductive Outcome (T : Type)
  | ok : T → Outcome T
  | err : String → Outcome T
deriving DecidableEq, Repr

/-- Observable behaviour of a `withRetry` run: the propagated result (the
error side carries the thrown `lastError`, `none` when it is still
`undefined`), the number of operation invocations, and the list of waited
delays in order. -/
structure RetryRun (T : Type) where
  result : Except (Option String) T
  calls : Nat
  waits : List Nat
deriving Repr

/-- The `for` loop of `withRetry`.  `remaining` is the number of loop
iterations left (`opts.maxAttempts - attempt + 1`); the operation is modelled
as a function from the attempt number to that invocation's outcome. -/
def withRetryGo {T : Type} (opts : RetryOptions) (op : Nat → Outcome T) :
    Nat → Nat → Nat → Option String → RetryRun T
  | 0, _, _, lastError => ⟨Except.error lastError, 0, []⟩
  | remaining + 1, attempt, delay, _ =>
    match op attempt with
    | Outcome.ok v => ⟨Except.ok v, 1, []⟩
    | Outcome.err msg =>
      if !isRetryable opts msg || attempt == opts.maxAttempts then
        ⟨Except.error (some msg), 1, []⟩
      else
        let r := withRetryGo opts op remaining (attempt + 1)
          (min (delay * opts.backoffFactor) opts.maxDelay) (some msg)
        ⟨r.result, r.calls + 1, delay :: r.waits⟩

/-- Embedding of `withRetry` from src/utils/retry.ts. -/
def withRetry {T : Type} (opts : RetryOptions) (op : Nat → Outcome T) : RetryRun T :=
  withRetryGo opts op opts.maxAttempts 1 opts.initialDelay none

/-- The delay sequence starting from `d`: each later wait is the previous one
times `backoffFactor`, capped at `maxDelay`. -/
def delaySeq (opts : RetryOptions) : Nat → Nat → List Nat
  | 0, _ => []
  | n + 1, d => d :: delaySeq opts n (min (d * opts.backoffFactor) opts.maxDelay)

/-! ### URL helpers (src/utils/url.ts) -/

/-- Embedding of `isDomainMatch`: exact hostname match or dot-separated
subdomain suffix match. -/
def isDomainMatch (hostname domain : String) : Bool :=
  if hostname == domain then true
  else if strEndsWith hostname ((".") ++ domain) then true
  else false

/-- Embedding of `isSupportedPlatform`, with URL parsing abstracted: the
argument is the parsed hostname, `none` when `new URL(url)` throws. -/
def isSupportedPlatform (supportedDomains : List String) :
    Option String → Bool
  | none => false
  | some hostname => supportedDomains.any (fun domain => isDomainMatch hostname domain)

/-! ### Cookie-file selection (src/config/env.ts) -/

/-- One `COOKIES_FILE_<SITE>` environment variable: `site` is the key with
the prefix removed and lowercased, `path` its value (`none` = undefined). -/
structure CookieEnvVar where
  site : String
  path : Option String
deriving DecidableEq, Repr

/-- JavaScript `value || null` for `value : string | undefined`: the empty
string and undefined both give null. -/
def orNull : Option String → Option String
  | none => none
  | some s => if s == "" then none else some s

/-- Embedding of `getCookieFileForDomain`: walk the `COOKIES_FILE_*` variables
in order, returning on the first site match (youtube and twitter/x aliases,
otherwise exact match with `site` or `site + ".com"`), else fall back to
`COOKIES_FILE || null`. -/
def getCookieFileForDomain (cookiesFile : Option String) (domain : String) :
    List CookieEnvVar → Option String
  | [] => orNull cookiesFile
  | v :: rest =>
    if v.site == "youtube" then
      if domain == "youtube.com" || domain == "youtu.be" then orNull v.path
      else getCookieFileForDomain cookiesFile domain rest
    else if v.site == "twitter" || v.site == "x" then
      if domain == "twitter.com" || domain == "x.com" then orNull v.path
      else getCookieFileForDomain cookiesFile domain rest
    else
      if domain == v.site ++ ".com" || domain == v.site then orNull v.path
      else getCookieFileForDomain cookiesFile domain rest

/-- The per-variable match condition of `getCookieFileForDomain`, factored
out for the characterisation theorem. -/
def siteMatches (site domain : String) : Bool :=
  if site == "youtube" then domain == "youtube.com" || domain == "youtu.be"
  else if site == "twitter" || site == "x" then
    domain == "twitter.com" || domain == "x.com"
  else domain == site ++ ".com" || domain == site

/-! ### Image-site classification (src/services/downloader.ts) -/

/-- The six-element site list inside `MediaDownloader.isImageSite`. -/
def imageSites : List String :=
  ["instagram.com", "twitter.com", "x.com", "pixiv.net", "deviantart.com",
   "artstation.com"]

/-- Embedding of `MediaDownloader.isImageSite`, with URL parsing abstracted:
the argument is the parsed hostname, `none` when `new URL(url)` throws (the
catch branch returns false).  The code strips a leading `www.` and then uses
a plain `String.endsWith` against each site. -/
def isImageSite : Option String → Bool
  | none => false
  | some hostname =>
    imageSites.any (fun site => strEndsWith (stripWww hostname) site)

/-! ### Helper lemmas: string predicates -/

theorem leadsList_iff : ∀ p h : List Char, leadsList p h = true ↔ p <+: h
  | [], h => by simp [leadsList, List.nil_prefix]
  | a :: ps, [] => by simp [leadsList]
  | a :: ps, b :: hs => by
    simp [leadsList, List.cons_prefix_cons, leadsList_iff ps hs, Bool.and_eq_true,
      beq_iff_eq, And.comm]

theorem strEndsWith_iff (hay pat : String) :
    strEndsWith hay pat = true ↔ pat.data <:+ hay.data := by
  rw [strEndsWith, leadsList_iff]
  exact List.reverse_prefix

theorem occursIn_iff (p : List Char) : ∀ h : List Char, occursIn p h = true ↔ p <:+: h
  | [] => by simp [occursIn, leadsList_iff, List.prefix_nil, List.infix_nil]
  | b :: hs => by
    simp [occursIn, leadsList_iff, occursIn_iff p hs, List.infix_cons_iff]

theorem strIncludes_iff (hay pat : String) :
    strIncludes hay pat = true ↔ pat.data <:+: hay.data := by
  rw [strIncludes]
  exact occursIn_iff pat.data hay.data

/-! ### Helper lemmas: rate limiter steps -/

theorem getOrCreateEntry_cooldown (t : Nat) (e : RateLimitEntry) :
    (getOrCreateEntry t (some e)).cooldownUntil = e.cooldownUntil := by
  simp only [getOrCreateEntry]
  split <;> rfl

theorem getOrCreateEntry_no_rotate (t : Nat) (e : RateLimitEntry)
    (h : t ≤ e.lastReset + resetInterval) :
    getOrCreateEntry t (some e) = e := by
  simp only [getOrCreateEntry]
  rw [if_neg]
  omega

theorem getOrCreateEntry_rotate (t : Nat) (e : RateLimitEntry)
    (h : resetInterval < t - e.lastReset) :
    getOrCreateEntry t (some e) = ⟨0, t, e.cooldownUntil⟩ := by
  simp only [getOrCreateEntry]
  rw [if_pos]
  omega

theorem canMakeRequestEntry_cooldown (cfg : RateLimitConfig) (t : Nat)
    (e : RateLimitEntry) (h : t < e.cooldownUntil) :
    canMakeRequestEntry cfg t e = (false, e) := by
  simp only [canMakeRequestEntry]
  rw [if_pos]
  omega

theorem canMakeRequestEntry_allowed (cfg : RateLimitConfig) (t : Nat)
    (e : RateLimitEntry) (h1 : e.cooldownUntil ≤ t) (h2 : e.count < cfg.RATE_LIMIT) :
    canMakeRequestEntry cfg t e = (true, e) := by
  simp only [canMakeRequestEntry]
  rw [if_neg, if_neg] <;> omega

theorem canMakeRequestEntry_breach (cfg : RateLimitConfig) (t : Nat)
    (e : RateLimitEntry) (h1 : e.cooldownUntil ≤ t) (h2 : cfg.RATE_LIMIT ≤ e.count) :
    canMakeRequestEntry cfg t e
      = (false, { e with cooldownUntil := t + cfg.COOLDOWN * 1000 }) := by
  simp only [canMakeRequestEntry]
  rw [if_neg, if_pos] <;> omega

theorem canMakeRequest_in_cooldown (cfg : RateLimitConfig) (t : Nat)
    (e : RateLimitEntry) (h : t < e.cooldownUntil) :
    canMakeRequest cfg t (some e) = (false, getOrCreateEntry t (some e)) := by
  unfold canMakeRequest
  exact canMakeRequestEntry_cooldown cfg t _
    (by rw [getOrCreateEntry_cooldown]; exact h)

/-! ### Helper lemmas: traces of rate-limiter calls -/

theorem runTrace_cooldown (cfg : RateLimitConfig) :
    ∀ (ops : List RateOp) (e : RateLimitEntry),
      (∀ op ∈ ops, RateOp.time op < e.cooldownUntil) →
      (runTrace cfg e ops).2.cooldownUntil = e.cooldownUntil
  | [], _, _ => rfl
  | RateOp.check t :: ops, e, h => by
    have ht : t < e.cooldownUntil := h (RateOp.check t) (by simp)
    have hcd := getOrCreateEntry_cooldown t e
    have ih := runTrace_cooldown cfg ops (getOrCreateEntry t (some e))
      (by intro op hop; rw [hcd]; exact h op (by simp [hop]))
    simp only [runTrace, canMakeRequest_in_cooldown cfg t e ht]
    rw [ih, hcd]
  | RateOp.record t :: ops, e, h => by
    have hcd : (recordRequest t (some e)).cooldownUntil = e.cooldownUntil := by
      simp only [recordRequest]
      exact getOrCreateEntry_cooldown t e
    have ih := runTrace_cooldown cfg ops (recordRequest t (some e))
      (by intro op hop; rw [hcd]; exact h op (by simp [hop]))
    simp only [runTrace]
    rw [ih, hcd]

theorem runTrace_checkOps (cfg : RateLimitConfig) :
    ∀ (ts : List Nat) (e : RateLimitEntry),
      (∀ t ∈ ts, t < e.cooldownUntil) →
      (runTrace cfg e (checkOps ts)).1 = List.replicate ts.length false
      ∧ (runTrace cfg e (checkOps ts)).2.cooldownUntil = e.cooldownUntil
  | [], _, _ => ⟨rfl, rfl⟩
  | t :: ts, e, h => by
    have ht : t < e.cooldownUntil := h t (by simp)
    have hcd := getOrCreateEntry_cooldown t e
    have ih := runTrace_checkOps cfg ts (getOrCreateEntry t (some e))
      (by intro u hu; rw [hcd]; exact h u (by simp [hu]))
    simp only [checkOps, runTrace, canMakeRequest_in_cooldown cfg t e ht]
    exact ⟨by rw [ih.1]; simp [List.replicate_succ], by rw [ih.2, hcd]⟩

theorem runTrace_append (cfg : RateLimitConfig) :
    ∀ (l1 l2 : List RateOp) (e : RateLimitEntry),
      runTrace cfg e (l1 ++ l2)
        = ((runTrace cfg e l1).1 ++ (runTrace cfg (runTrace cfg e l1).2 l2).1,
           (runTrace cfg (runTrace cfg e l1).2 l2).2)
  | [], l2, e => by simp [runTrace]
  | RateOp.check t :: l1, l2, e => by
    simp only [List.cons_append, runTrace, List.append_eq, runTrace_append cfg l1 l2,
      List.cons_append]
  | RateOp.record t :: l1, l2, e => by
    simp only [List.cons_append, runTrace, List.append_eq, runTrace_append cfg l1 l2]

theorem runTrace_rounds (cfg : RateLimitConfig) (t0 : Nat) :
    ∀ (ps : List (Nat × Nat)) (k : Nat),
      (∀ p ∈ ps, p.1 ≤ t0 + resetInterval ∧ p.2 ≤ t0 + resetInterval) →
      k + ps.length ≤ cfg.RATE_LIMIT →
      runTrace cfg ⟨k, t0, 0⟩ (roundOps ps)
        = (List.replicate ps.length true, ⟨k + ps.length, t0, 0⟩)
  | [], k, _, _ => by simp [roundOps, runTrace]
  | p :: ps, k, hps, hk => by
    obtain ⟨h1, h2⟩ := hps p (by simp)
    have hg1 : getOrCreateEntry p.1 (some ⟨k, t0, 0⟩) = ⟨k, t0, 0⟩ :=
      getOrCreateEntry_no_rotate _ _ (by simpa using h1)
    have hcm : canMakeRequest cfg p.1 (some ⟨k, t0, 0⟩) = (true, ⟨k, t0, 0⟩) := by
      unfold canMakeRequest
      rw [hg1]
      exact canMakeRequestEntry_allowed cfg p.1 _ (by simp)
        (by simp only []; simp at hk ⊢; omega)
    have hg2 : getOrCreateEntry p.2 (some ⟨k, t0, 0⟩) = ⟨k, t0, 0⟩ :=
      getOrCreateEntry_no_rotate _ _ (by simpa using h2)
    have hrec : recordRequest p.2 (some ⟨k, t0, 0⟩) = ⟨k + 1, t0, 0⟩ := by
      simp only [recordRequest, hg2]
    have ih := runTrace_rounds cfg t0 ps (k + 1)
      (fun q hq => hps q (by simp [hq])) (by simp at hk ⊢; omega)
    simp only [roundOps, runTrace, hcm, hrec, ih]
    have hn : k + 1 + ps.length = k + (p :: ps).length := by simp; omega
    simp [List.replicate_succ, hn]

/-! ### Claims about the rate limiter -/

/-- Claim C1, counterexample.  The claim says every `canMakeRequest` call with
`count` at or over the limit sets `cooldownUntil = now + cooldownDuration` and
that under repeated polling the cooldown never expires.  With the default
configuration (limit 10, cooldown 60 s) and an entry at the limit: the poll at
time 0 arms the cooldown to 60000, but the poll at time 1 returns false
leaving `cooldownUntil` at 60000 rather than re-arming it to 61000, and a poll
at time 60001 returns true — the cooldown expired despite the polling. -/
theorem C1_counterexample :
    (canMakeRequest ⟨10, 60⟩ 0 (some ⟨10, 0, 0⟩)).2.cooldownUntil = 0 + 60 * 1000
    ∧ canMakeRequest ⟨10, 60⟩ 1 (some (canMakeRequest ⟨10, 60⟩ 0 (some ⟨10, 0, 0⟩)).2)
        = (false, ⟨10, 0, 60000⟩)
    ∧ (60000 : Nat) ≠ 1 + 60 * 1000
    ∧ (canMakeRequest ⟨10, 60⟩ 60001 (some ⟨10, 0, 60000⟩)).1 = true := by
  decide

/-- Claim C1, amended.  A `canMakeRequest` call arms the cooldown to
`now + COOLDOWN * 1000` and returns false only when no cooldown is currently
active (`cooldownUntil ≤ now`) and the count is at or over the limit; while a
cooldown is active the call returns false and leaves `cooldownUntil`
unchanged. -/
theorem C1_amended (cfg : RateLimitConfig) (t : Nat) (e : RateLimitEntry) :
    (e.cooldownUntil ≤ t → cfg.RATE_LIMIT ≤ e.count → t ≤ e.lastReset + resetInterval →
      canMakeRequest cfg t (some e)
        = (false, { e with cooldownUntil := t + cfg.COOLDOWN * 1000 }))
    ∧ (t < e.cooldownUntil →
      (canMakeRequest cfg t (some e)).1 = false
      ∧ (canMakeRequest cfg t (some e)).2.cooldownUntil = e.cooldownUntil) := by
  constructor
  · intro h1 h2 h3
    unfold canMakeRequest
    rw [getOrCreateEntry_no_rotate t e h3]
    exact canMakeRequestEntry_breach cfg t e h1 h2
  · intro h
    rw [canMakeRequest_in_cooldown cfg t e h]
    exact ⟨rfl, getOrCreateEntry_cooldown t e⟩

/-- Claim C1, witness for the amended theorem at concrete inputs. -/
theorem C1_witness :
    canMakeRequest ⟨10, 60⟩ 5 (some ⟨10, 0, 0⟩) = (false, ⟨10, 0, 5 + 60 * 1000⟩)
    ∧ ((canMakeRequest ⟨10, 60⟩ 1 (some ⟨10, 0, 60000⟩)).1 = false
      ∧ (canMakeRequest ⟨10, 60⟩ 1 (some ⟨10, 0, 60000⟩)).2.cooldownUntil = 60000) :=
  ⟨(C1_amended ⟨10, 60⟩ 5 ⟨10, 0, 0⟩).1 (by decide) (by decide) (by decide),
   (C1_amended ⟨10, 60⟩ 1 ⟨10, 0, 60000⟩).2 (by decide)⟩

/-- Claim C2.  One identity, fresh window starting at `t0`: the usage pattern
is `RATE_LIMIT` check-then-record rounds at arbitrary times inside the window,
then further bare `canMakeRequest` polls with no more `recordRequest` calls.
The first `RATE_LIMIT` checks return true; the next check (the breaching call,
still inside the window, at time `s`) returns false, and every later check at
a time before `s + COOLDOWN * 1000` returns false as well, the final
`cooldownUntil` being exactly `s + COOLDOWN * 1000`. -/
theorem C2_breach_blocks (cfg : RateLimitConfig) (t0 s : Nat)
    (ps : List (Nat × Nat)) (us : List Nat)
    (hlen : ps.length = cfg.RATE_LIMIT)
    (hps : ∀ p ∈ ps, p.1 ≤ t0 + resetInterval ∧ p.2 ≤ t0 + resetInterval)
    (hs : s ≤ t0 + resetInterval)
    (hus : ∀ u ∈ us, u < s + cfg.COOLDOWN * 1000) :
    (runTrace cfg ⟨0, t0, 0⟩ (roundOps ps ++ RateOp.check s :: checkOps us)).1
      = List.replicate cfg.RATE_LIMIT true ++ false :: List.replicate us.length false
    ∧ (runTrace cfg ⟨0, t0, 0⟩
        (roundOps ps ++ RateOp.check s :: checkOps us)).2.cooldownUntil
      = s + cfg.COOLDOWN * 1000 := by
  have hrounds := runTrace_rounds cfg t0 ps 0 hps (by omega)
  have happ := runTrace_append cfg (roundOps ps) (RateOp.check s :: checkOps us) ⟨0, t0, 0⟩
  rw [hrounds] at happ
  have hg : getOrCreateEntry s (some ⟨0 + ps.length, t0, 0⟩) = ⟨0 + ps.length, t0, 0⟩ :=
    getOrCreateEntry_no_rotate _ _ (by simpa using hs)
  have hb : canMakeRequest cfg s (some ⟨0 + ps.length, t0, 0⟩)
      = (false, ⟨0 + ps.length, t0, s + cfg.COOLDOWN * 1000⟩) := by
    unfold canMakeRequest
    rw [hg]
    exact canMakeRequestEntry_breach cfg s _ (by simp) (by simp [hlen])
  have hcool := runTrace_checkOps cfg us ⟨0 + ps.length, t0, s + cfg.COOLDOWN * 1000⟩
    (by intro u hu; simpa using hus u hu)
  rw [happ]
  simp only [runTrace, hb]
  refine ⟨?_, hcool.2⟩
  rw [hcool.1, hlen]

/-- Claim C2, witness: limit 2, cooldown 60 s, two allowed rounds at times 0
and 1, breaching poll at time 2, further polls at times 3 and 60001 (both
before the cooldown end 60002). -/
theorem C2_witness :
    (runTrace ⟨2, 60⟩ ⟨0, 0, 0⟩
      (roundOps [(0, 0), (1, 1)] ++ RateOp.check 2 :: checkOps [3, 60001])).1
      = List.replicate 2 true ++ false :: List.replicate 2 false
    ∧ (runTrace ⟨2, 60⟩ ⟨0, 0, 0⟩
        (roundOps [(0, 0), (1, 1)] ++ RateOp.check 2 :: checkOps [3, 60001])).2.cooldownUntil
      = 2 + 60 * 1000 :=
  C2_breach_blocks ⟨2, 60⟩ 0 2 [(0, 0), (1, 1)] [3, 60001]
    (by decide) (by decide) (by decide) (by decide)

/-- Claim C3, counterexample.  The claim says the window is rotated whenever
the elapsed time is greater than or equal to 60 seconds, in particular at
exactly 60 seconds.  The code uses a strict comparison: at exactly 60000 ms
elapsed the entry is returned unrotated, and a `canMakeRequest` with the
count at the limit returns false where the claimed rotation would have made
it return true. -/
theorem C3_counterexample :
    getOrCreateEntry 60000 (some ⟨5, 0, 0⟩) = ⟨5, 0, 0⟩
    ∧ (⟨5, 0, 0⟩ : RateLimitEntry) ≠ ⟨0, 60000, 0⟩
    ∧ (canMakeRequest ⟨5, 60⟩ 60000 (some ⟨5, 0, 0⟩)).1 = false
    ∧ (canMakeRequest ⟨5, 60⟩ 60000 (some ⟨0, 60000, 0⟩)).1 = true := by
  decide

/-- Claim C3, amended.  Both `canMakeRequest` and `recordRequest` first rotate
the identity's window — reset `count` to 0 and set `lastReset` to now,
preserving `cooldownUntil` — before any cooldown or limit logic, but only when
the elapsed time since `lastReset` strictly exceeds 60 seconds; at an elapsed
time of exactly 60 seconds (and below) the window is not rotated. -/
theorem C3_amended (cfg : RateLimitConfig) (t : Nat) (e : RateLimitEntry) :
    (resetInterval < t - e.lastReset →
        getOrCreateEntry t (some e) = ⟨0, t, e.cooldownUntil⟩
      ∧ canMakeRequest cfg t (some e) = canMakeRequestEntry cfg t ⟨0, t, e.cooldownUntil⟩
      ∧ recordRequest t (some e) = ⟨1, t, e.cooldownUntil⟩)
    ∧ (t - e.lastReset ≤ resetInterval →
        getOrCreateEntry t (some e) = e
      ∧ canMakeRequest cfg t (some e) = canMakeRequestEntry cfg t e
      ∧ recordRequest t (some e) = ⟨e.count + 1, e.lastReset, e.cooldownUntil⟩) := by
  constructor
  · intro h
    have hg := getOrCreateEntry_rotate t e h
    refine ⟨hg, ?_, ?_⟩
    · unfold canMakeRequest
      rw [hg]
    · simp only [recordRequest, hg]
  · intro h
    have hg := getOrCreateEntry_no_rotate t e (by omega)
    refine ⟨hg, ?_, ?_⟩
    · unfold canMakeRequest
      rw [hg]
    · simp only [recordRequest, hg]

/-- Claim C3, witness for the amended theorem: elapsed 60001 ms rotates,
elapsed exactly 60000 ms does not. -/
theorem C3_witness :
    (getOrCreateEntry 60001 (some ⟨5, 0, 7⟩) = ⟨0, 60001, 7⟩
      ∧ canMakeRequest ⟨9, 60⟩ 60001 (some ⟨5, 0, 7⟩)
          = canMakeRequestEntry ⟨9, 60⟩ 60001 ⟨0, 60001, 7⟩
      ∧ recordRequest 60001 (some ⟨5, 0, 7⟩) = ⟨1, 60001, 7⟩)
    ∧ (getOrCreateEntry 60000 (some ⟨5, 0, 7⟩) = ⟨5, 0, 7⟩
      ∧ canMakeRequest ⟨9, 60⟩ 60000 (some ⟨5, 0, 7⟩)
          = canMakeRequestEntry ⟨9, 60⟩ 60000 ⟨5, 0, 7⟩
      ∧ recordRequest 60000 (some ⟨5, 0, 7⟩) = ⟨6, 0, 7⟩) :=
  ⟨(C3_amended ⟨9, 60⟩ 60001 ⟨5, 0, 7⟩).1 (by decide),
   (C3_amended ⟨9, 60⟩ 60000 ⟨5, 0, 7⟩).2 (by decide)⟩

/-- Claim C4.  Once an identity's `cooldownUntil` holds a future time, any
interleaving of `canMakeRequest` and `recordRequest` calls at times strictly
before `cooldownUntil` leaves it in place (window rotation resets the count
but keeps `cooldownUntil`), and every `canMakeRequest` at a time strictly
before `cooldownUntil` returns false regardless of the count. -/
theorem C4_cooldown_invariant (cfg : RateLimitConfig) (e : RateLimitEntry)
    (ops : List RateOp) (t : Nat)
    (hops : ∀ op ∈ ops, RateOp.time op < e.cooldownUntil)
    (ht : t < e.cooldownUntil) :
    (canMakeRequest cfg t (some (runTrace cfg e ops).2)).1 = false := by
  have hcd := runTrace_cooldown cfg ops e hops
  rw [canMakeRequest_in_cooldown cfg t _ (by rw [hcd]; exact ht)]

/-- Claim C4, witness: cooldown until 100000, an interleaved record and check
before that time, then a check at time 3 is rejected. -/
theorem C4_witness :
    (canMakeRequest ⟨10, 60⟩ 3
      (some (runTrace ⟨10, 60⟩ ⟨0, 0, 100000⟩ [RateOp.record 1, RateOp.check 2]).2)).1
      = false :=
  C4_cooldown_invariant ⟨10, 60⟩ ⟨0, 0, 100000⟩ [RateOp.record 1, RateOp.check 2] 3
    (by decide) (by decide)

/-! ### Claims about the retry executor -/

theorem withRetryGo_allfail {T : Type} (opts : RetryOptions) (op : Nat → Outcome T)
    (msgs : Nat → String) :
    ∀ (rem attempt delay : Nat) (le : Option String),
      1 ≤ rem → attempt + rem = opts.maxAttempts + 1 →
      (∀ k, attempt ≤ k → k ≤ opts.maxAttempts → op k = Outcome.err (msgs k)) →
      (∀ k, attempt ≤ k → k ≤ opts.maxAttempts → isRetryable opts (msgs k) = true) →
      withRetryGo opts op rem attempt delay le
        = ⟨Except.error (some (msgs opts.maxAttempts)), rem, delaySeq opts (rem - 1) delay⟩
  | 0, _, _, _, h1, _, _, _ => absurd h1 (by omega)
  | rem + 1, attempt, delay, le, _, h2, hop, hr => by
    have hatt : attempt ≤ opts.maxAttempts := by omega
    simp only [withRetryGo, hop attempt (Nat.le_refl _) hatt,
      hr attempt (Nat.le_refl _) hatt, Bool.not_true, Bool.false_or]
    by_cases hend : rem = 0
    · subst hend
      have heq : attempt = opts.maxAttempts := by omega
      simp [heq, delaySeq]
    · obtain ⟨r, rfl⟩ : ∃ r, rem = r + 1 := ⟨rem - 1, by omega⟩
      have hne : attempt ≠ opts.maxAttempts := by omega
      have ih := withRetryGo_allfail opts op msgs (r + 1) (attempt + 1)
        (min (delay * opts.backoffFactor) opts.maxDelay) (some (msgs attempt))
        (by omega) (by omega)
        (fun k hk1 hk2 => hop k (by omega) hk2)
        (fun k hk1 hk2 => hr k (by omega) hk2)
      simp only [beq_iff_eq, hne, if_false, ih, delaySeq, Nat.add_sub_cancel]

/-- Claim C5.  For an operation that fails on every attempt with a retryable
error, `withRetry` invokes it exactly `maxAttempts` times, propagates the
error message of the final attempt, and the waits between attempts are the
sequence starting at `initialDelay` where each later wait is the previous one
times `backoffFactor` capped at `maxDelay` (`maxAttempts - 1` waits), the
total wait being the sum of that sequence. -/
theorem C5_retry_exhaustion {T : Type} (opts : RetryOptions) (op : Nat → Outcome T)
    (msgs : Nat → String)
    (hn : 1 ≤ opts.maxAttempts)
    (hop : ∀ k, 1 ≤ k → k ≤ opts.maxAttempts → op k = Outcome.err (msgs k))
    (hr : ∀ k, 1 ≤ k → k ≤ opts.maxAttempts → isRetryable opts (msgs k) = true) :
    withRetry opts op
      = ⟨Except.error (some (msgs opts.maxAttempts)), opts.maxAttempts,
         delaySeq opts (opts.maxAttempts - 1) opts.initialDelay⟩
    ∧ (withRetry opts op).waits.sum
      = (delaySeq opts (opts.maxAttempts - 1) opts.initialDelay).sum := by
  have h := withRetryGo_allfail opts op msgs opts.maxAttempts 1 opts.initialDelay none
    hn (by omega) hop hr
  rw [withRetry]
  exact ⟨h, by rw [h]⟩

/-- Claim C5, witness: the default policy against an operation always failing
with `ETIMEDOUT` makes 3 attempts, waits 1000 then 2000 ms, total 3000 ms. -/
theorem C5_witness :
    withRetry defaultOptions (fun _ => (Outcome.err ("ETIMEDOUT") : Outcome Nat))
      = ⟨Except.error (some ("ETIMEDOUT")), 3, [1000, 2000]⟩
    ∧ (withRetry defaultOptions
        (fun _ => (Outcome.err ("ETIMEDOUT") : Outcome Nat))).waits.sum = 3000 := by
  have h := C5_retry_exhaustion defaultOptions
    (fun _ => (Outcome.err ("ETIMEDOUT") : Outcome Nat)) (fun _ => ("ETIMEDOUT"))
    (by decide) (fun _ _ _ => rfl)
    (by intro k hk1 hk2; show isRetryable defaultOptions ("ETIMEDOUT") = true; decide)
  exact ⟨h.1, by rw [h.2]; decide⟩

/-- Claim C6.  With `maxAttempts = 3`, an operation that fails twice with
retryable errors and then succeeds: `withRetry` returns the success value and
the operation is invoked exactly 3 times. -/
theorem C6_two_failures_then_success {T : Type} (opts : RetryOptions)
    (op : Nat → Outcome T) (m1 m2 : String) (v : T)
    (hmax : opts.maxAttempts = 3)
    (h1 : op 1 = Outcome.err m1) (h2 : op 2 = Outcome.err m2)
    (h3 : op 3 = Outcome.ok v)
    (hr1 : isRetryable opts m1 = true) (hr2 : isRetryable opts m2 = true) :
    (withRetry opts op).result = Except.ok v ∧ (withRetry opts op).calls = 3 := by
  simp only [withRetry, hmax, withRetryGo, h1, h2, h3, hr1, hr2]
  simp

/-- Claim C6, witness: the default policy against an operation that times out
twice and then yields 42. -/
theorem C6_witness :
    (withRetry defaultOptions
      (fun k => if k ≤ 2 then Outcome.err ("ETIMEDOUT") else Outcome.ok 42)).result
      = Except.ok 42
    ∧ (withRetry defaultOptions
        (fun k => if k ≤ 2 then Outcome.err ("ETIMEDOUT") else Outcome.ok 42)).calls
      = 3 :=
  C6_two_failures_then_success defaultOptions
    (fun k => if k ≤ 2 then Outcome.err ("ETIMEDOUT") else Outcome.ok 42)
    ("ETIMEDOUT") ("ETIMEDOUT") 42 rfl (by decide) (by decide) (by decide)
    (by decide) (by decide)

/-- Claim C7.  For any `maxAttempts ≥ 1`, an operation whose first failure
message matches no `retryableErrors` entry (no substring hit for string
entries and no test hit for pattern entries) is invoked exactly once;
`withRetry` propagates that first failure with no waits. -/
theorem C7_nonretryable_fail_fast {T : Type} (opts : RetryOptions)
    (op : Nat → Outcome T) (m : String)
    (hn : 1 ≤ opts.maxAttempts)
    (hop : op 1 = Outcome.err m)
    (hnr : ∀ p ∈ opts.retryableErrors, p.matchesMsg m = false) :
    withRetry opts op = ⟨Except.error (some m), 1, []⟩ := by
  have hret : isRetryable opts m = false := by
    simp only [isRetryable, List.any_eq_false]
    intro p hp
    simp [hnr p hp]
  obtain ⟨r, hrr⟩ : ∃ r, opts.maxAttempts = r + 1 := ⟨opts.maxAttempts - 1, by omega⟩
  simp only [withRetry, hrr, withRetryGo, hop, hret]
  simp

/-- Claim C7, witness: the default policy against an operation failing with
the non-retryable message `boom` gives one call, no wait. -/
theorem C7_witness :
    withRetry defaultOptions (fun _ => (Outcome.err ("boom") : Outcome Nat))
      = ⟨Except.error (some ("boom")), 1, []⟩ :=
  C7_nonretryable_fail_fast defaultOptions
    (fun _ => (Outcome.err ("boom") : Outcome Nat)) ("boom")
    (by decide) rfl (by decide)

/-! ### Claims about URL and cookie handling -/

theorem isDomainMatch_eq_or (h d : String) :
    isDomainMatch h d = (h == d || strEndsWith h ((".") ++ d)) := by
  cases hb1 : (h == d) <;> cases hb2 : strEndsWith h ((".") ++ d) <;>
    simp [isDomainMatch, hb1, hb2]

/-- Claim C8.  `isSupportedPlatform` matches the hostname against each
configured domain exactly when the hostname equals the domain or has
`"." ++ domain` as a suffix, and the four concrete cases behave as stated:
`www.youtube.com` matches `youtube.com`, `evilyoutube.com` does not, `x.com`
matches `x.com`, and `hehx.com` (ending in the string `x.com` but not in
`.x.com`) does not. -/
theorem C8_domain_matching :
    (∀ h d : String, isDomainMatch h d = true ↔ (h = d ∨ ((".") ++ d).data <:+ h.data))
    ∧ (∀ (doms : List String) (h : String),
        isSupportedPlatform doms (some h) = true ↔ ∃ d ∈ doms, isDomainMatch h d = true)
    ∧ isDomainMatch ("www.youtube.com") ("youtube.com") = true
    ∧ isDomainMatch ("evilyoutube.com") ("youtube.com") = false
    ∧ isDomainMatch ("x.com") ("x.com") = true
    ∧ isDomainMatch ("hehx.com") ("x.com") = false := by
  refine ⟨?_, ?_, by decide, by decide, by decide, by decide⟩
  · intro h d
    rw [isDomainMatch_eq_or]
    simp [Bool.or_eq_true, beq_iff_eq, strEndsWith_iff]
  · intro doms h
    simp [isSupportedPlatform, List.any_eq_true]

/-- Claim C9, counterexample.  The claim says a true subdomain of a configured
site selects that site's credential file.  With `COOKIES_FILE_INSTAGRAM`
pointing to `ig.txt` and a default of `default.txt`, the domain
`sub.instagram.com` selects the default file, not `ig.txt`; with no default
configured it selects nothing at all. -/
theorem C9_counterexample :
    getCookieFileForDomain (some ("default.txt")) ("sub.instagram.com")
      [⟨("instagram"), some ("ig.txt")⟩] = some ("default.txt")
    ∧ some ("default.txt") ≠ some ("ig.txt")
    ∧ getCookieFileForDomain none ("sub.instagram.com")
        [⟨("instagram"), some ("ig.txt")⟩] = none := by
  decide

/-- Claim C9, amended.  `getCookieFileForDomain` walks the `COOKIES_FILE_*`
entries in order and returns on the first whose site matches the domain,
where matching is: the `youtube` alias matches exactly `youtube.com` and
`youtu.be`, the `twitter` (or `x`) alias matches exactly `twitter.com` and
`x.com`, and any other site matches exactly `site + ".com"` or `site` — exact
equality only, no subdomain-suffix matching (the caller separately strips one
leading `www.` from the hostname).  When no entry matches it falls back to
`COOKIES_FILE`. -/
theorem C9_amended :
    (∀ (cf : Option String) (domain : String),
        getCookieFileForDomain cf domain [] = orNull cf)
    ∧ (∀ (cf : Option String) (domain : String) (v : CookieEnvVar)
        (rest : List CookieEnvVar),
        getCookieFileForDomain cf domain (v :: rest)
          = if siteMatches v.site domain then orNull v.path
            else getCookieFileForDomain cf domain rest)
    ∧ siteMatches ("youtube") ("youtube.com") = true
    ∧ siteMatches ("youtube") ("youtu.be") = true
    ∧ siteMatches ("youtube") ("sub.youtube.com") = false
    ∧ siteMatches ("twitter") ("twitter.com") = true
    ∧ siteMatches ("twitter") ("x.com") = true
    ∧ siteMatches ("x") ("x.com") = true
    ∧ siteMatches ("instagram") ("instagram.com") = true
    ∧ siteMatches ("instagram") ("instagram") = true
    ∧ siteMatches ("instagram") ("sub.instagram.com") = false := by
  refine ⟨fun cf domain => rfl, ?_, by decide, by decide, by decide, by decide,
    by decide, by decide, by decide, by decide, by decide⟩
  intro cf domain v rest
  cases hb1 : (v.site == "youtube") <;>
    cases hb2 : (v.site == "twitter" || v.site == "x") <;>
      simp [getCookieFileForDomain, siteMatches, hb1, hb2]

/-- Claim C10.  `isImageSite` classifies a URL as an image site exactly when
its hostname, with only a leading `www.` stripped, ends with one of the six
configured site strings as a plain string suffix; in particular `hehx.com`
(which `isDomainMatch` rejects against `x.com`) is classified as an image
site and routed to the gallery-dl pipeline, and an unparseable URL gives
false. -/
theorem C10_image_site_suffix :
    (∀ h : String, isImageSite (some h)
        = imageSites.any (fun site => strEndsWith (stripWww h) site))
    ∧ (∀ h : String, isImageSite (some h) = true
        ↔ ∃ site ∈ imageSites, site.data <:+ (stripWww h).data)
    ∧ isImageSite (some ("hehx.com")) = true
    ∧ isDomainMatch ("hehx.com") ("x.com") = false
    ∧ isImageSite none = false
    ∧ isImageSite (some ("www.instagram.com")) = true := by
  refine ⟨fun h => rfl, ?_, by decide, by decide, rfl, by decide⟩
  intro h
  simp [isImageSite, List.any_eq_true, strEndsWith_iff]

end Tgmr
